import Mathlib

/-!
Verification development for the browseterm-db repository.

The development shallowly embeds the parts of the source that the
specification's claims are about:

* `Migrator` — the migration lifecycle manager
  (`src/browseterm_db/migrations/migrator.py`).  The chain-walking
  behaviour of the underlying third-party migration engine (invoked via
  `command.upgrade` / `command.revision` / `command.current`) is not part
  of this repository's sources; where a claim depends on it, the engine is
  modelled from the spec (sections 4.1-4.4) and from the behaviour pinned
  by the repository's own test suite (`src/tests/test_migrations.py`).
* `MigratorReset` — the reset/introspection utilities
  (`Migrator.reset_database`, `Migrator.reset_migrations`,
  `Migrator.get_tables`), embedded over an explicit database/filesystem
  state.
* `ContainerStatusMigration` — the value mappings of the revision script
  `089fb8e7c9e2_changed_containerstatusenum.py`.
* `DBStateManager` — the JSON-driven reference-data sync utility
  (`src/db_state_manager/state_manager.py`).
-/

namespace Migrator

/-- A reversible schema operation, the unit of change carried by a
revision script (spec section 3, "Schema Operation"). -/
inductive SchemaOp where
  | createTable (name : String)
  | dropTable (name : String)
deriving DecidableEq, Repr

/-- A revision script: identifier, parent pointer (none marks the root)
and the forward operations of its `upgrade` procedure.  Mirrors the
header of the version files under `migrations/versions/`. -/
structure Revision where
  rid : String
  parentRid : Option String
  ops : List SchemaOp
deriving DecidableEq, Repr

/-- The state the migration subsystem acts on: the Script Repository's
revision chain in root-to-head order (the `versions` directory), the
Applied-Revision Marker (the single row of `alembic_version`, `none` on a
clean database), and the live tables of the `public` schema. -/
structure MigState where
  chain : List Revision
  marker : Option String
  tables : List String
deriving DecidableEq, Repr

/-- Errors surfaced by the migration engine (spec section 7). -/
inductive MigError where
  | notUpToDate
  | duplicateRevision
  | markerNotInChain
deriving DecidableEq, Repr

/-- The head of the revision chain: the identifier of the last script in
root-to-head order, `none` when the repository is empty. -/
def headRid (chain : List Revision) : Option String :=
  chain.getLast?.map Revision.rid

/-- The suffix of the chain strictly after the first revision whose
identifier is the given marker; `none` when the marker resolves to no
revision of the chain. -/
def afterMarker : List Revision → String → Option (List Revision)
  | [], _ => none
  | r :: rs, m => if r.rid = m then some rs else afterMarker rs m

/-- The revisions an `upgrade` to head still has to apply: the whole
chain on a clean database, otherwise the chain suffix after the marker. -/
def pendingOf (s : MigState) : Option (List Revision) :=
  match s.marker with
  | none => some s.chain
  | some m => afterMarker s.chain m

/-- Effect of one schema operation on the live table list. -/
def applyOp (tables : List String) : SchemaOp → List String
  | .createTable n => tables ++ [n]
  | .dropTable n => tables.filter (fun t => t != n)

/-- Effect of applying a sequence of revision scripts' forward
operations, in chain order. -/
def applyRevs (tables : List String) (revs : List Revision) : List String :=
  revs.foldl (fun ts r => r.ops.foldl applyOp ts) tables

/-- Modelled from the spec: the upgrade engine behind
`Migrator.upgrade` (`command.upgrade` of the third-party migration
library, not part of this repository's sources).  Per spec section 4.4 it
walks the chain from the marker's position to the head, applies each
pending script's forward operations in chain order, and moves the marker
to the head.  The returned list is the sequence of revisions actually
applied by the call. -/
def upgrade (s : MigState) : Except MigError (MigState × List Revision) :=
  match pendingOf s with
  | none => Except.error MigError.markerNotInChain
  | some pend =>
      Except.ok
        ({ s with
            marker := match headRid pend with
              | some r => some r
              | none => s.marker,
            tables := applyRevs s.tables pend },
         pend)

/-- Modelled from the spec: the revision generator behind
`Migrator.revision` with `autogenerate` (`command.revision` of the
third-party migration library, not part of this repository's sources).
Per spec sections 4.2-4.3 and the behaviour pinned by
`test_c_migrations`: it refuses with "Target database is not up to date"
when the applied marker differs from the Script Repository head, refuses
identifier collisions, and otherwise appends a new revision whose parent
pointer is the current head — even when the diff is empty. -/
def revision (s : MigState) (newId : String) (diffOps : List SchemaOp) :
    Except MigError (MigState × String) :=
  if s.marker ≠ headRid s.chain then Except.error MigError.notUpToDate
  else if newId ∈ s.chain.map Revision.rid then Except.error MigError.duplicateRevision
  else Except.ok ({ s with chain := s.chain ++ [⟨newId, headRid s.chain, diffOps⟩] }, newId)

/-- Embeds `Migrator.current` (`migrator.py` lines 39-41): the Python
method calls the display command `command.current` — which prints the
marker's identifier to stdout (nothing on a clean database) — and
returns `None`.  The first component is the method's return value, the
second the lines displayed. -/
def current (s : MigState) : Option String × List String :=
  (none, s.marker.toList)

/-- Embeds `Migrator.get_tables` (`migrator.py` lines 169-174): lists the
tables of the `public` schema. -/
def get_tables (s : MigState) : List String :=
  s.tables

/-- Suffix used by `Migrator.revision` to select migration scripts in the
versions directory (`f.endswith` with this literal). -/
def pySuffix : String := ".py"

/-- The fallback value `Migrator.revision` returns when no revision
identifier can be determined (`migrator.py` line 82). -/
def unknownId : String := "unknown"

/-- Embeds Python's `f.endswith` with the script suffix, as a suffix
test on the character sequences of the two strings. -/
def isScriptFile (f : String) : Bool :=
  pySuffix.data.isSuffixOf f.data

/-- Embeds `max(new_files, key=getctime)` of `migrator.py` line 79 over
(name, ctime) pairs: the first entry of maximal ctime, `none` on an empty
list. -/
def latestByCtime : List (String × Nat) → Option (String × Nat)
  | [] => none
  | f :: fs => some (fs.foldl (fun best g => if best.2 < g.2 then g else best) f)

/-- Embeds `latest_file.split` on an underscore, index 0, of
`migrator.py` line 80: the prefix of the filename before the first
underscore (the whole name when none occurs). -/
def revIdOfFilename (f : String) : String :=
  f.takeWhile (fun c => c != '_')

/-- Embeds the revision-identifier extraction of `Migrator.revision`
(`migrator.py` lines 72-87): use the command result's revision attribute
when present; otherwise fall back to the newest `.py` file of the
versions directory; otherwise return the literal fallback value.  The
directory listing is modelled as (name, ctime) pairs. -/
def extractRevisionId (revAttr : Option String) (dirEntries : List (String × Nat)) :
    String :=
  match revAttr with
  | some r => r
  | none =>
      match latestByCtime (dirEntries.filter (fun e => isScriptFile e.1)) with
      | some f => revIdOfFilename f.1
      | none => unknownId

end Migrator

namespace MigratorReset

/-- An entry of the versions directory as `Migrator.reset_migrations`
sees it via `os.listdir`: its name, whether it is a plain file (as
opposed to a directory), and whether the removal call (`os.remove` /
`shutil.rmtree`) succeeds on it. -/
structure VItem where
  name : String
  isFile : Bool
  removable : Bool
deriving DecidableEq, Repr

/-- The database-resident state the reset utilities act on: the tables
and enumerated types of the `public` schema and the Applied-Revision
Marker (the content of the `alembic_version` row, `none` when absent). -/
structure DBState where
  tables : List String
  enums : List String
  marker : Option String
deriving DecidableEq, Repr

/-- Combined state for the reset utilities: the database plus the
versions directory of the Script Repository (`none` when the directory
does not exist). -/
structure SysState where
  db : DBState
  versions : Option (List VItem)
deriving DecidableEq, Repr

/-- The fixed table list dropped by `Migrator.reset_database`
(`migrator.py` lines 100-109): the tracking table and the five managed
tables. -/
def droppedTables : List String :=
  ["alembic_version", "orders", "containers", "subscriptions",
   "subscription_types", "users"]

/-- The fixed enumerated-type list dropped by `Migrator.reset_database`
(`migrator.py` lines 110-118). -/
def droppedEnums : List String :=
  ["orderscurrency", "subscriptiontypecurrency", "authprovider",
   "orderstatus", "subscriptionstatus", "containerstatus"]

/-- Embeds `Migrator.reset_database` (`migrator.py` lines 92-120): drops
the tracking table (and with it the marker row) and the managed tables
and enumerated types, each via `DROP ... IF EXISTS`, committing in one
connection.  The versions directory is untouched. -/
def reset_database (s : SysState) : SysState :=
  { s with
      db :=
        { tables := s.db.tables.filter (fun t => !(droppedTables.contains t)),
          enums := s.db.enums.filter (fun e => !(droppedEnums.contains e)),
          marker := none } }

/-- Embeds `Migrator.reset_migrations` (`migrator.py` lines 122-140):
returns immediately when the versions directory does not exist;
otherwise attempts to remove each entry, and — because the removal of
each item sits in a try/except that prints a warning and continues — an
entry whose removal fails stays in place while the function still
returns normally.  The second component lists the names of the entries
whose removal failed (the printed warnings); the database is never
touched. -/
def reset_migrations (s : SysState) : SysState × List String :=
  match s.versions with
  | none => (s, [])
  | some es =>
      ({ s with versions := some (es.filter (fun e => !e.removable)) },
       (es.filter (fun e => !e.removable)).map VItem.name)

/-- Embeds `Migrator.get_tables` (`migrator.py` lines 169-174) over the
reset-utility state: lists the tables of the `public` schema. -/
def get_tables (s : SysState) : List String :=
  s.db.tables

/-- Reading the Applied-Revision Marker after a reset (the value
`current()` would report, spec section 4.1). -/
def appliedMarker (s : SysState) : Option String :=
  s.db.marker

end MigratorReset

namespace ContainerStatusMigration

/-- The old `containerstatus` enumerated type, as recreated by the
`downgrade` of revision script 089fb8e7c9e2. -/
inductive OldStatus where
  | RUNNING
  | STOPPED
  | FAILED
  | DELETED
deriving DecidableEq, Repr, Fintype

/-- The new `containerstatus` enumerated type, as created by the
`upgrade` of revision script 089fb8e7c9e2. -/
inductive NewStatus where
  | PENDING
  | RUNNING
  | SUCCEEDED
  | FAILED
  | UNKNOWN
deriving DecidableEq, Repr, Fintype

/-- Embeds the `USING CASE` value mapping of the script's `upgrade`
(`089fb8e7c9e2_changed_containerstatusenum.py` lines 27-37): STOPPED
becomes PENDING, DELETED becomes UNKNOWN, RUNNING and FAILED are kept
(the ELSE branch of the CASE is unreachable on the old enum's values). -/
def upgradeStatus : OldStatus → NewStatus
  | .STOPPED => .PENDING
  | .DELETED => .UNKNOWN
  | .RUNNING => .RUNNING
  | .FAILED => .FAILED

/-- Embeds the value mapping of the script's `downgrade`
(`089fb8e7c9e2_changed_containerstatusenum.py` lines 43-64): the two
UPDATE statements send PENDING to STOPPED and UNKNOWN to DELETED, and
the closing `USING status::text::containerstatus` cast keeps RUNNING and
FAILED; the cast has no old counterpart for SUCCEEDED, where it fails
(`none`). -/
def downgradeStatus : NewStatus → Option OldStatus
  | .PENDING => some .STOPPED
  | .UNKNOWN => some .DELETED
  | .RUNNING => some .RUNNING
  | .FAILED => some .FAILED
  | .SUCCEEDED => none

end ContainerStatusMigration

namespace DBStateManager

/-- A list item as handled by `DBStateManager`: a JSON object carrying a
"name" key plus its remaining fields. -/
structure DItem where
  name : String
  payload : List (String × String)
deriving DecidableEq, Repr

/-- The set of names occurring in a list of items
(`{item["name"] for item in l}`). -/
def itemNames (l : List DItem) : Finset String :=
  (l.map DItem.name).toFinset

/-- The three-way diff returned by `DBStateManager.find_differences`. -/
structure Differences where
  unique_to_state_list : Finset String
  unique_to_db_list : Finset String
  common_to_state_db_list : Finset String
deriving DecidableEq

/-- Embeds `DBStateManager.find_differences` (`state_manager.py` lines
101-126): an early return of three empty sets when both lists are empty,
otherwise the difference, reverse difference and intersection of the two
name sets. -/
def find_differences (state_list db_list : List DItem) : Differences :=
  if state_list = [] ∧ db_list = [] then
    ⟨∅, ∅, ∅⟩
  else
    ⟨itemNames state_list \ itemNames db_list,
     itemNames db_list \ itemNames state_list,
     itemNames state_list ∩ itemNames db_list⟩

/-- Embeds the Python dict comprehension `{item["name"]: item for item
in l}` followed by `.get(n)`: the last item of the list bearing the
name wins, `none` when no item does. -/
def dictGet (l : List DItem) (n : String) : Option DItem :=
  l.reverse.find? (fun i => i.name == n)

/-- Which of the two lists an update in `DBStateManager.update_items`
took its item from. -/
inductive Source where
  | fromState
  | fromDb
deriving DecidableEq, Repr

/-- The error raised by `DBStateManager.update_items` when a name
resolves in neither list (`state_manager.py` line 169). -/
inductive UpdateError where
  | itemNotFound (name : String)
deriving DecidableEq, Repr

/-- Embeds the loop of `DBStateManager.update_items` (`state_manager.py`
lines 163-172) over an enumeration of the names of
`differences["common_to_state_db_list"]`: each name is looked up in the
state list's dict first, falling back to the db list's dict, and raises
when found in neither; the result records, per name, which list the
updated item came from and the item itself. -/
def update_items (state_list db_list : List DItem) :
    List String → Except UpdateError (List (String × Source × DItem))
  | [] => Except.ok []
  | n :: ns =>
      match dictGet state_list n with
      | some i =>
          (update_items state_list db_list ns).map
            (fun rest => (n, Source.fromState, i) :: rest)
      | none =>
          match dictGet db_list n with
          | some i =>
              (update_items state_list db_list ns).map
                (fun rest => (n, Source.fromDb, i) :: rest)
          | none => Except.error (UpdateError.itemNotFound n)

end DBStateManager

/-! Concrete states used to instantiate the theorems below. -/

/-- An initial revision creating two of the managed tables (the shape of
the root script of the repository's chain). -/
def revRoot : Migrator.Revision :=
  ⟨"093e4526fa42", none, [Migrator.SchemaOp.createTable ("users"),
                          Migrator.SchemaOp.createTable ("containers")]⟩

/-- A follow-up revision with an empty operation list, child of
`revRoot` (the shape of an explicit no-op revision). -/
def revEnum : Migrator.Revision :=
  ⟨"089fb8e7c9e2", some ("093e4526fa42"), []⟩

/-- A fresh revision identifier colliding with no script of the
fixtures' chains. -/
def freshId : String := "77aa88bb99cc"

/-- A clean database (no marker, no tables) whose Script Repository
already holds one revision: the live marker is strictly behind the
head. -/
def sClean : Migrator.MigState :=
  ⟨[revRoot], none, []⟩

/-- The state reached from `sClean` by one `upgrade`: marker at the
head, both tables created. -/
def sAfterFirst : Migrator.MigState :=
  ⟨[revRoot], some ("093e4526fa42"), ["users", "containers"]⟩

/-- A database whose marker is up to date with the single-revision
chain's head. -/
def sUpToDate : Migrator.MigState :=
  ⟨[revRoot], some ("093e4526fa42"), ["users", "containers"]⟩

/-- A two-revision chain whose marker still points at the root: the
live database is strictly behind the head. -/
def sBehind : Migrator.MigState :=
  ⟨[revRoot, revEnum], some ("093e4526fa42"), ["users", "containers"]⟩

/-- A database holding one managed table plus a table outside the fixed
drop list of `reset_database`. -/
def sysExtra : MigratorReset.SysState :=
  ⟨⟨["users", "extra_table"], ["containerstatus"], some ("089fb8e7c9e2")⟩, some []⟩

/-- A database holding only tables of the fixed drop list, with a
version script on disk and an applied marker. -/
def sysManaged : MigratorReset.SysState :=
  ⟨⟨["alembic_version", "users", "containers", "orders", "subscriptions",
     "subscription_types"],
    ["containerstatus", "orderstatus"], some ("089fb8e7c9e2")⟩,
   some [⟨"089fb8e7c9e2_changed.py", true, true⟩]⟩

/-- A versions-directory entry whose removal fails. -/
def stuckEntry : MigratorReset.VItem :=
  ⟨"stuck.py", true, false⟩

/-- The name of the entry whose removal fails. -/
def stuckName : String := "stuck.py"

/-- A system whose versions directory holds one removable script and
one entry whose removal fails. -/
def sysStuck : MigratorReset.SysState :=
  ⟨⟨[], [], some ("089fb8e7c9e2")⟩,
   some [⟨"093e4526fa42_initial.py", true, true⟩, stuckEntry]⟩

/-- A state-file item. -/
def itemAlpha : DBStateManager.DItem :=
  ⟨"alpha", [("cpu", "2")]⟩

/-- The database's version of the same item, with stale payload. -/
def itemAlphaDb : DBStateManager.DItem :=
  ⟨"alpha", [("cpu", "1")]⟩

/-- A state-file item absent from the database. -/
def itemBeta : DBStateManager.DItem :=
  ⟨"beta", []⟩

/-- A state list for the sync-utility fixtures. -/
def slFix : List DBStateManager.DItem := [itemAlpha, itemBeta]

/-- A database list for the sync-utility fixtures. -/
def dlFix : List DBStateManager.DItem := [itemAlphaDb]

/-- A versions-directory listing containing no migration script. -/
def entriesNoPy : List (String × Nat) :=
  [("notes.txt", 3), ("__pycache__", 1)]

/-! Helper lemmas. -/

/-- A chain head's identifier occurs among the chain's identifiers. -/
theorem Migrator.headRid_mem {chain : List Migrator.Revision} {h0 : String}
    (hh : Migrator.headRid chain = some h0) :
    h0 ∈ chain.map Migrator.Revision.rid := by
  unfold Migrator.headRid at hh
  cases hgl : chain.getLast? with
  | none => rw [hgl] at hh; simp at hh
  | some r =>
      rw [hgl] at hh
      simp only [Option.map_some', Option.some.injEq] at hh
      have hmem : r ∈ chain := by
        obtain ⟨hne, heq⟩ :=
          List.mem_getLast?_eq_getLast ((Option.mem_def).mpr hgl)
        rw [heq]
        exact List.getLast_mem hne
      exact List.mem_map.mpr ⟨r, hmem, hh⟩

/-- On a duplicate-free chain, the suffix after the last revision's
identifier is empty: the head has no pending successor. -/
theorem Migrator.afterMarker_getLast :
    ∀ {l : List Migrator.Revision} {r : Migrator.Revision},
      l.getLast? = some r → (l.map Migrator.Revision.rid).Nodup →
      Migrator.afterMarker l r.rid = some []
  | [], r, hl, _ => by simp at hl
  | [a], r, hl, _ => by
      simp only [List.getLast?_singleton, Option.some.injEq] at hl
      subst hl
      simp [Migrator.afterMarker]
  | a :: b :: ts, r, hl, hnd => by
      rw [List.getLast?_cons_cons] at hl
      have hmem : r ∈ b :: ts := by
        obtain ⟨hne, heq⟩ :=
          List.mem_getLast?_eq_getLast ((Option.mem_def).mpr hl)
        rw [heq]
        exact List.getLast_mem hne
      rw [List.map_cons] at hnd
      have hnd2 := List.nodup_cons.mp hnd
      have hne : ¬ (a.rid = r.rid) := by
        intro heq
        exact hnd2.1 (heq ▸ List.mem_map.mpr ⟨r, hmem, rfl⟩)
      show Migrator.afterMarker (a :: b :: ts) r.rid = some []
      unfold Migrator.afterMarker
      rw [if_neg hne]
      exact Migrator.afterMarker_getLast hl hnd2.2

/-- A nonempty suffix returned by `afterMarker` ends where the whole
chain ends. -/
theorem Migrator.getLast?_eq_of_afterMarker :
    ∀ {l p : List Migrator.Revision} {m : String},
      Migrator.afterMarker l m = some p → p ≠ [] →
      l.getLast? = p.getLast?
  | [], p, m, h, _ => by simp [Migrator.afterMarker] at h
  | a :: t, p, m, h, hp => by
      unfold Migrator.afterMarker at h
      by_cases hc : a.rid = m
      · rw [if_pos hc] at h
        obtain rfl : t = p := by simpa using h
        cases t with
        | nil => exact absurd rfl hp
        | cons b ts => exact List.getLast?_cons_cons
      · rw [if_neg hc] at h
        have ht : t ≠ [] := by
          intro hnil
          subst hnil
          simp [Migrator.afterMarker] at h
        have := Migrator.getLast?_eq_of_afterMarker h hp
        cases t with
        | nil => exact absurd rfl ht
        | cons b ts => rw [List.getLast?_cons_cons]; exact this

/-- Three-way split of two finite sets: the two differences and the
intersection are pairwise disjoint and cover the union. -/
theorem finsetThreeWaySplit (A B : Finset String) :
    ((A \ B) ∩ (B \ A) = ∅)
    ∧ ((A \ B) ∩ (A ∩ B) = ∅)
    ∧ ((B \ A) ∩ (A ∩ B) = ∅)
    ∧ ((A \ B) ∪ (B \ A) ∪ (A ∩ B) = A ∪ B) := by
  refine ⟨?_, ?_, ?_, ?_⟩ <;> (ext x; simp; tauto)

/-- A name common to both lists resolves in the state list's dict. -/
theorem DBStateManager.dictGet_isSome_of_common
    {sl dl : List DBStateManager.DItem} {n : String}
    (h : n ∈ (DBStateManager.find_differences sl dl).common_to_state_db_list) :
    (DBStateManager.dictGet sl n).isSome := by
  unfold DBStateManager.find_differences at h
  split at h
  · simp at h
  · have hmem : n ∈ DBStateManager.itemNames sl := (Finset.mem_inter.mp h).1
    have hlist : n ∈ sl.map DBStateManager.DItem.name := by
      simpa [DBStateManager.itemNames] using hmem
    obtain ⟨i, hi, hni⟩ := List.mem_map.mp hlist
    exact List.find?_isSome.mpr ⟨i, List.mem_reverse.mpr hi, by simp [hni]⟩

/-! Claim theorems. -/

/-- C8: for every pair of item lists, `find_differences` returns exactly
the difference of the state names and the db names, the reverse
difference, and the intersection; the three sets are pairwise disjoint
and their union is the set of all names occurring in either list. -/
theorem c8_find_differences_correct (sl dl : List DBStateManager.DItem) :
    (DBStateManager.find_differences sl dl).unique_to_state_list
        = DBStateManager.itemNames sl \ DBStateManager.itemNames dl
    ∧ (DBStateManager.find_differences sl dl).unique_to_db_list
        = DBStateManager.itemNames dl \ DBStateManager.itemNames sl
    ∧ (DBStateManager.find_differences sl dl).common_to_state_db_list
        = DBStateManager.itemNames sl ∩ DBStateManager.itemNames dl
    ∧ (DBStateManager.find_differences sl dl).unique_to_state_list
        ∩ (DBStateManager.find_differences sl dl).unique_to_db_list = ∅
    ∧ (DBStateManager.find_differences sl dl).unique_to_state_list
        ∩ (DBStateManager.find_differences sl dl).common_to_state_db_list = ∅
    ∧ (DBStateManager.find_differences sl dl).unique_to_db_list
        ∩ (DBStateManager.find_differences sl dl).common_to_state_db_list = ∅
    ∧ (DBStateManager.find_differences sl dl).unique_to_state_list
        ∪ (DBStateManager.find_differences sl dl).unique_to_db_list
        ∪ (DBStateManager.find_differences sl dl).common_to_state_db_list
        = DBStateManager.itemNames sl ∪ DBStateManager.itemNames dl := by
  obtain ⟨d1, d2, d3, d4⟩ :=
    finsetThreeWaySplit (DBStateManager.itemNames sl) (DBStateManager.itemNames dl)
  unfold DBStateManager.find_differences
  split
  · rename_i hempty
    obtain ⟨rfl, rfl⟩ := hempty
    simp [DBStateManager.itemNames]
  · exact ⟨rfl, rfl, rfl, d1, d2, d3, d4⟩

/-- C7 counterexample: the claim asserts some old containerstatus value
survives the upgrade-then-downgrade mapping of script 089fb8e7c9e2
changed; in fact no such value exists — the composition is the identity
on all four old values (STOPPED goes to PENDING and back, DELETED to
UNKNOWN and back, RUNNING and FAILED are fixed). -/
theorem c7_roundtrip_counterexample :
    ¬ (∃ v : ContainerStatusMigration.OldStatus,
        ContainerStatusMigration.downgradeStatus
            (ContainerStatusMigration.upgradeStatus v) ≠ some v) := by
  decide

/-- C7 amended: the forward-then-back value mapping of script
089fb8e7c9e2 is the identity on every old containerstatus value; the
only irreversibility sits in the other direction — the downgrade's
value cast has no old counterpart for the new status SUCCEEDED. -/
theorem c7_roundtrip_identity :
    (∀ v : ContainerStatusMigration.OldStatus,
        ContainerStatusMigration.downgradeStatus
            (ContainerStatusMigration.upgradeStatus v) = some v)
    ∧ ContainerStatusMigration.downgradeStatus
        ContainerStatusMigration.NewStatus.SUCCEEDED = none := by
  decide

/-- C10: when the command result carries no revision attribute and the
versions directory holds no migration script, `Migrator.revision`'s
identifier extraction returns the literal fallback value "unknown"
rather than raising — so the return value need not be a valid revision
identifier. -/
theorem c10_extract_unknown (revAttr : Option String)
    (entries : List (String × Nat))
    (hattr : revAttr = none)
    (hpy : entries.filter (fun e => Migrator.isScriptFile e.1) = []) :
    Migrator.extractRevisionId revAttr entries = "unknown" := by
  subst hattr
  unfold Migrator.extractRevisionId
  rw [hpy]
  rfl

/-- C10 witness: a directory listing without migration scripts makes the
extraction return "unknown". -/
theorem c10_extract_unknown_witness :
    Migrator.extractRevisionId none entriesNoPy = "unknown" :=
  c10_extract_unknown none entriesNoPy rfl (by decide)

/-- C9: when every name handed to `update_items` lies in the
common-names set computed by `find_differences`, the call succeeds (the
not-found error is unreachable) and every updated item is taken from the
state list (the db-list fallback is unreachable). -/
theorem c9_update_items_uses_state (sl dl : List DBStateManager.DItem)
    (ns : List String)
    (h : ∀ n ∈ ns,
        n ∈ (DBStateManager.find_differences sl dl).common_to_state_db_list) :
    DBStateManager.update_items sl dl ns =
      Except.ok (ns.filterMap (fun n =>
        (DBStateManager.dictGet sl n).map
          (fun i => (n, DBStateManager.Source.fromState, i)))) := by
  induction ns with
  | nil => rfl
  | cons n ns ih =>
      have hs := DBStateManager.dictGet_isSome_of_common
        (h n (List.mem_cons_self n ns))
      obtain ⟨i, hi⟩ := Option.isSome_iff_exists.mp hs
      have hrec := ih (fun m hm => h m (List.mem_cons_of_mem n hm))
      rw [List.filterMap_cons]
      simp only [DBStateManager.update_items, hi, hrec, Option.map_some']
      rfl

/-- C9 witness: on the fixture lists, whose common name set is the
intersection, the update takes its item from the state list and no
branch errs. -/
theorem c9_update_items_uses_state_witness :
    DBStateManager.update_items slFix dlFix ["alpha"] =
      Except.ok [("alpha", DBStateManager.Source.fromState, itemAlpha)] := by
  have h := c9_update_items_uses_state slFix dlFix ["alpha"] (by decide)
  rw [h]
  rfl

/-- C5 counterexample: the claim asserts `current()` returns the applied
revision identifier when one has been applied; on a state whose marker
holds an identifier, the method's return value is still `None` —
`Migrator.current` in the source is a display command returning
nothing. -/
theorem c5_current_counterexample :
    sUpToDate.marker = some ("093e4526fa42")
    ∧ (Migrator.current sUpToDate).1 = none := by
  exact ⟨rfl, rfl⟩

/-- C5 amended: `current()` always returns `None`; the applied revision
identifier is only displayed — the printed output is empty exactly on a
clean database (not an error) and carries the marker's identifier when
one has been applied. -/
theorem c5_current_displays_only (s : Migrator.MigState) :
    (Migrator.current s).1 = none
    ∧ ((Migrator.current s).2 = [] ↔ s.marker = none)
    ∧ (∀ r, s.marker = some r → r ∈ (Migrator.current s).2) := by
  refine ⟨rfl, ?_, ?_⟩
  · cases hm : s.marker <;> simp [Migrator.current, hm]
  · intro r hr
    simp [Migrator.current, hr]

/-- C5 amended witness: on the fixture state with an applied revision,
the return value is `None` while the display carries the identifier. -/
theorem c5_current_displays_only_witness :
    (Migrator.current sUpToDate).1 = none
    ∧ ("093e4526fa42" : String) ∈ (Migrator.current sUpToDate).2 := by
  refine ⟨(c5_current_displays_only sUpToDate).1, ?_⟩
  exact (c5_current_displays_only sUpToDate).2.2 ("093e4526fa42") rfl

/-- C4 counterexample: the claim asserts `get_tables()` is empty after
`reset_database()` in every state; on a state holding a table outside
the fixed drop list, the table survives and the listing is nonempty —
`reset_database` drops only its hard-coded tables. -/
theorem c4_reset_database_counterexample :
    MigratorReset.get_tables (MigratorReset.reset_database sysExtra)
        = ["extra_table"]
    ∧ MigratorReset.get_tables (MigratorReset.reset_database sysExtra) ≠ [] := by
  exact ⟨rfl, by decide⟩

/-- C4 amended: `reset_migrations` never touches database-resident
state, so the applied-revision marker read afterwards is unchanged;
`reset_database` drops the tracking table (clearing the marker), the
managed tables and the managed enum types, so afterwards no managed
table or enum remains and `get_tables` is empty whenever only managed
tables existed. -/
theorem c4_reset_effects (s : MigratorReset.SysState) :
    (MigratorReset.reset_migrations s).1.db = s.db
    ∧ MigratorReset.appliedMarker (MigratorReset.reset_migrations s).1
        = MigratorReset.appliedMarker s
    ∧ (MigratorReset.reset_database s).db.marker = none
    ∧ (∀ t ∈ MigratorReset.get_tables (MigratorReset.reset_database s),
        t ∈ MigratorReset.get_tables s ∧ t ∉ MigratorReset.droppedTables)
    ∧ (∀ e ∈ (MigratorReset.reset_database s).db.enums,
        e ∉ MigratorReset.droppedEnums)
    ∧ ((∀ t ∈ s.db.tables, t ∈ MigratorReset.droppedTables) →
        MigratorReset.get_tables (MigratorReset.reset_database s) = []) := by
  have hdb : (MigratorReset.reset_migrations s).1.db = s.db := by
    cases hv : s.versions <;> simp [MigratorReset.reset_migrations, hv]
  refine ⟨hdb, ?_, rfl, ?_, ?_, ?_⟩
  · unfold MigratorReset.appliedMarker
    rw [hdb]
  · intro t ht
    simp only [MigratorReset.get_tables, MigratorReset.reset_database,
      List.mem_filter] at ht
    refine ⟨ht.1, ?_⟩
    simpa using ht.2
  · intro e he
    simp only [MigratorReset.reset_database, List.mem_filter] at he
    simpa using he.2
  · intro hall
    simp only [MigratorReset.get_tables, MigratorReset.reset_database]
    rw [List.filter_eq_nil_iff]
    intro t ht
    simp [hall t ht]

/-- C4 amended witness: on the fixture whose tables are all managed,
`reset_migrations` preserves the marker and `reset_database` leaves no
table. -/
theorem c4_reset_effects_witness :
    MigratorReset.appliedMarker (MigratorReset.reset_migrations sysManaged).1
        = some ("089fb8e7c9e2")
    ∧ MigratorReset.get_tables (MigratorReset.reset_database sysManaged) = [] := by
  have h := c4_reset_effects sysManaged
  exact ⟨h.2.1.trans rfl, h.2.2.2.2.2 (by decide)⟩

/-- C6 counterexample: the claim asserts every underlying failure is
surfaced to the immediate caller as an error; `reset_migrations` on a
directory with an entry whose removal fails returns normally — the
failing entry is still present afterwards and only a printed warning
records the failure, while the caller receives an ordinary result. -/
theorem c6_reset_migrations_swallows :
    (MigratorReset.reset_migrations sysStuck).2 = [stuckName]
    ∧ stuckEntry ∈ ((MigratorReset.reset_migrations sysStuck).1.versions.getD [])
    ∧ (MigratorReset.reset_migrations sysStuck).1.db = sysStuck.db := by
  refine ⟨rfl, ?_, rfl⟩
  decide

/-- C6 amended: revision generation surfaces its underlying failure to
the caller as an error, but `reset_migrations` does not: a
versions-directory entry whose removal fails is merely warned about and
left in place, and the call completes normally. -/
theorem c6_error_propagation :
    (∀ (s : Migrator.MigState) (newId : String) (ops : List Migrator.SchemaOp),
        s.marker ≠ Migrator.headRid s.chain →
        Migrator.revision s newId ops
          = Except.error Migrator.MigError.notUpToDate)
    ∧ (∀ (sys : MigratorReset.SysState) (es : List MigratorReset.VItem)
          (e : MigratorReset.VItem),
        sys.versions = some es → e ∈ es → e.removable = false →
        e.name ∈ (MigratorReset.reset_migrations sys).2
        ∧ e ∈ ((MigratorReset.reset_migrations sys).1.versions.getD [])) := by
  constructor
  · intro s newId ops hne
    unfold Migrator.revision
    rw [if_pos hne]
  · intro sys es e hv he hr
    have hf : e ∈ es.filter (fun x => !x.removable) :=
      List.mem_filter.mpr ⟨he, by simp [hr]⟩
    constructor
    · simp only [MigratorReset.reset_migrations, hv]
      exact List.mem_map.mpr ⟨e, hf, rfl⟩
    · simp only [MigratorReset.reset_migrations, hv, Option.getD_some]
      exact hf

/-- C6 amended witness: on the fixtures, an out-of-date generation
errs while a failing removal inside `reset_migrations` only yields a
warning with the entry left in place. -/
theorem c6_error_propagation_witness :
    Migrator.revision sClean freshId []
        = Except.error Migrator.MigError.notUpToDate
    ∧ stuckName ∈ (MigratorReset.reset_migrations sysStuck).2 := by
  refine ⟨c6_error_propagation.1 sClean freshId [] (by decide), ?_⟩
  have h := c6_error_propagation.2 sysStuck
    [⟨"093e4526fa42_initial.py", true, true⟩, stuckEntry] stuckEntry
    rfl (by decide) rfl
  exact h.1

/-- C1: in a state whose Script Repository has a head and whose live
marker is up to date with it, generating a revision with an empty diff
and a non-colliding identifier succeeds, persists a new revision whose
identifier differs from the prior head's, moves the repository head to
it, and leaves `get_tables` unchanged. -/
theorem c1_empty_diff_new_head (s : Migrator.MigState) (h0 newId : String)
    (hhead : Migrator.headRid s.chain = some h0)
    (hmark : s.marker = some h0)
    (hfresh : newId ∉ s.chain.map Migrator.Revision.rid) :
    Migrator.revision s newId [] =
        Except.ok ({ s with chain := s.chain ++ [⟨newId, some h0, []⟩] }, newId)
    ∧ newId ≠ h0
    ∧ Migrator.headRid (s.chain ++ [⟨newId, some h0, []⟩]) = some newId
    ∧ Migrator.get_tables { s with chain := s.chain ++ [⟨newId, some h0, []⟩] }
        = Migrator.get_tables s := by
  have hne : newId ≠ h0 := fun heq => hfresh (heq ▸ Migrator.headRid_mem hhead)
  refine ⟨?_, hne, ?_, rfl⟩
  · unfold Migrator.revision
    rw [hmark, hhead, if_neg (fun hc => hc rfl), if_neg hfresh]
  · simp [Migrator.headRid, List.getLast?_concat]

/-- C1 witness: on the up-to-date fixture, an empty-diff generation with
a fresh identifier yields a new distinct head and unchanged tables. -/
theorem c1_empty_diff_new_head_witness :
    Migrator.revision sUpToDate freshId [] =
        Except.ok ({ sUpToDate with
          chain := sUpToDate.chain ++ [⟨freshId, some ("093e4526fa42"), []⟩] },
          freshId)
    ∧ freshId ≠ "093e4526fa42"
    ∧ Migrator.headRid (sUpToDate.chain ++ [⟨freshId, some ("093e4526fa42"), []⟩])
        = some freshId
    ∧ Migrator.get_tables { sUpToDate with
          chain := sUpToDate.chain ++ [⟨freshId, some ("093e4526fa42"), []⟩] }
        = Migrator.get_tables sUpToDate :=
  c1_empty_diff_new_head sUpToDate ("093e4526fa42") freshId rfl rfl (by decide)

/-- C2: if `upgrade` to head succeeds from a duplicate-free chain, a
second `upgrade` with no intervening generation returns the very same
state — the marker value is unchanged — and applies no migration step. -/
theorem c2_upgrade_idempotent (s s1 : Migrator.MigState)
    (applied : List Migrator.Revision)
    (hnd : (s.chain.map Migrator.Revision.rid).Nodup)
    (h : Migrator.upgrade s = Except.ok (s1, applied)) :
    Migrator.upgrade s1 = Except.ok (s1, []) := by
  unfold Migrator.upgrade at h
  cases hp : Migrator.pendingOf s with
  | none => simp [hp] at h
  | some pend =>
      simp only [hp, Except.ok.injEq, Prod.mk.injEq] at h
      obtain ⟨h1, h2⟩ := h
      subst h2
      subst h1
      unfold Migrator.upgrade
      suffices hkey :
          Migrator.pendingOf
            { s with
                marker := match Migrator.headRid pend with
                  | some r => some r
                  | none => s.marker,
                tables := Migrator.applyRevs s.tables pend }
            = some [] by
        rw [hkey]
        rfl
      cases hpe : pend.getLast? with
      | none =>
          obtain rfl : pend = [] := List.getLast?_eq_none_iff.mp hpe
          simpa [Migrator.pendingOf, Migrator.headRid] using hp
      | some r =>
          have hchainLast : s.chain.getLast? = some r := by
            cases hm : s.marker with
            | none =>
                have hch : s.chain = pend := by
                  unfold Migrator.pendingOf at hp
                  rw [hm] at hp
                  simpa using hp
                rw [hch]
                exact hpe
            | some m =>
                have hp2 : Migrator.afterMarker s.chain m = some pend := by
                  unfold Migrator.pendingOf at hp
                  rw [hm] at hp
                  simpa using hp
                have hne2 : pend ≠ [] := by
                  intro hnil
                  subst hnil
                  simp at hpe
                rw [Migrator.getLast?_eq_of_afterMarker hp2 hne2]
                exact hpe
          have hafter := Migrator.afterMarker_getLast hchainLast hnd
          simp [Migrator.pendingOf, Migrator.headRid, hpe, hafter]

/-- C2 witness: after one successful `upgrade` from the clean fixture, a
second `upgrade` returns the identical state and applies nothing. -/
theorem c2_upgrade_idempotent_witness :
    Migrator.upgrade sAfterFirst = Except.ok (sAfterFirst, []) :=
  c2_upgrade_idempotent sClean sAfterFirst [revRoot] (by decide) rfl

/-- C3 counterexample: the claim asserts that generating a revision
while the live marker is strictly behind the Script Repository head
succeeds; on the clean fixture, whose marker is behind the existing
head, generation instead fails with the engine's "Target database is not
up to date" error — exactly what `test_c_migrations` observes. -/
theorem c3_revision_behind_counterexample :
    Migrator.headRid sClean.chain = some ("093e4526fa42")
    ∧ sClean.marker = none
    ∧ Migrator.revision sClean freshId []
        = Except.error Migrator.MigError.notUpToDate := by
  exact ⟨rfl, rfl, rfl⟩

/-- C3 amended: generating a revision with autogenerate while the live
marker is strictly behind the Script Repository head (some revision of
the chain is still unapplied) fails with the "Target database is not up
to date" error: the ordering requirement is enforced already at
generation time, before any new revision could be applied. -/
theorem c3_revision_behind_fails (s : Migrator.MigState) (newId : String)
    (ops : List Migrator.SchemaOp) (p : Migrator.Revision)
    (ps : List Migrator.Revision)
    (hnd : (s.chain.map Migrator.Revision.rid).Nodup)
    (hpend : Migrator.pendingOf s = some (p :: ps)) :
    Migrator.revision s newId ops
      = Except.error Migrator.MigError.notUpToDate := by
  have hne : s.marker ≠ Migrator.headRid s.chain := by
    intro heq
    cases hm : s.marker with
    | none =>
        have hch : s.chain = p :: ps := by
          unfold Migrator.pendingOf at hpend
          rw [hm] at hpend
          simpa using hpend
        rw [hm] at heq
        have hnone : (p :: ps).getLast? = none := by
          have h2 := heq.symm
          rw [hch] at h2
          unfold Migrator.headRid at h2
          exact Option.map_eq_none'.mp h2
        simp at hnone
    | some m =>
        have hpend2 : Migrator.afterMarker s.chain m = some (p :: ps) := by
          unfold Migrator.pendingOf at hpend
          rw [hm] at hpend
          simpa using hpend
        rw [hm] at heq
        obtain ⟨r, hr, hrid⟩ :
            ∃ r, s.chain.getLast? = some r ∧ r.rid = m := by
          unfold Migrator.headRid at heq
          cases hgl : s.chain.getLast? with
          | none => rw [hgl] at heq; simp at heq
          | some r =>
              rw [hgl] at heq
              exact ⟨r, rfl, by simpa using heq.symm⟩
        have hafter := Migrator.afterMarker_getLast hr hnd
        rw [hrid] at hafter
        rw [hafter] at hpend2
        simp at hpend2
  unfold Migrator.revision
  rw [if_pos hne]

/-- C3 amended witness: with the two-revision fixture chain applied only
up to its root, generation fails with the up-to-date error. -/
theorem c3_revision_behind_fails_witness :
    Migrator.revision sBehind freshId []
      = Except.error Migrator.MigError.notUpToDate :=
  c3_revision_behind_fails sBehind freshId [] revEnum [] (by decide) rfl
